import Mathlib

/-!
Verification of the cursor-pagination plugin (`src/index.js`).

The JavaScript source is shallowly embedded: each JS function becomes a Lean
definition of the same name, JS values that flow through the pagination API
are modelled by the inductive `JSVal`, the knex query builder's `_statements`
array becomes a `List Statement`, and functions that `throw` become
`Except Error` computations.  The two database round trips (the page fetch
and the count) are modelled as explicit executor functions passed in by the
caller, matching the spec's treatment of the query engine as an external
collaborator.
-/

namespace BCP

/-- JavaScript values that can appear in the pagination options, in cursor
column values and in fetched record attributes.  Numbers are modelled as
integers (the plugin only ever manipulates them through `parseInt`). -/
inductive JSVal where
  | undefined : JSVal
  | null : JSVal
  | bool (b : Bool) : JSVal
  | num (n : Int) : JSVal
  | str (s : String) : JSVal
  | arr (xs : List JSVal) : JSVal

/-- JS truthiness: `undefined`, `null`, `false`, `0` and `""` are falsy;
every other modelled value (including any array) is truthy. -/
def truthy : JSVal → Bool
  | .undefined => false
  | .null => false
  | .bool b => b
  | .num n => n != 0
  | .str s => s != ""
  | .arr _ => true

/-- JS `Array.isArray`. -/
def isArray : JSVal → Bool
  | .arr _ => true
  | _ => false

mutual

/-- JS string conversion, as applied by `parseInt` to a non-string argument:
an array converts via `Array.prototype.join(',')`. -/
def jsToString : JSVal → String
  | .undefined => "undefined"
  | .null => "null"
  | .bool b => if b then "true" else "false"
  | .num n => toString n
  | .str s => s
  | .arr xs => String.intercalate "," (jsArrayElems xs)
termination_by structural v => v

/-- Element conversion inside `Array.prototype.join`: `null` and `undefined`
elements become empty strings, every other element converts as usual. -/
def jsArrayElems : List JSVal → List String
  | [] => []
  | .undefined :: vs => "" :: jsArrayElems vs
  | .null :: vs => "" :: jsArrayElems vs
  | v :: vs => jsToString v :: jsArrayElems vs
termination_by structural vs => vs

end

/-- Numeric value of a list of decimal digit characters (most significant
first), used by the model of `parseInt`. -/
def digitsToNat (cs : List Char) : Nat :=
  cs.foldl (fun acc c => acc * 10 + (c.toNat - '0'.toNat)) 0

/-- Leading-digit scan of `parseInt(s, 10)` after sign handling: `none`
models the JS result `NaN` (no leading digits). -/
def parseDigits (cs : List Char) : Option Nat :=
  let ds := cs.takeWhile Char.isDigit
  if ds.isEmpty then none else some (digitsToNat ds)

/-- JS `parseInt(s, 10)` on a string: skip leading whitespace, read an
optional sign, then the maximal run of decimal digits; `none` models `NaN`. -/
def parseIntStr (s : String) : Option Int :=
  let cs := s.data.dropWhile fun c => c = ' ' || c = '\t' || c = '\n' || c = '\r'
  match cs with
  | '-' :: rest => (parseDigits rest).map fun n => -(n : Int)
  | '+' :: rest => (parseDigits rest).map fun n => (n : Int)
  | _ => (parseDigits cs).map fun n => (n : Int)

/-- JS `parseInt(v, 10)` on an arbitrary value: the argument is first
converted to a string. -/
def parseIntJS (v : JSVal) : Option Int :=
  parseIntStr (jsToString v)

/-- `DEFAULT_LIMIT` from the source. -/
def DEFAULT_LIMIT : Int := 10

/-- `ensurePositiveIntWithDefault(val, def)` from the source: a falsy value
yields the default, then `parseInt` is attempted and `NaN` yields the
default; any other parsed integer (including a negative one) is returned
unchanged. -/
def ensurePositiveIntWithDefault (val : JSVal) (d : Int) : Int :=
  if !truthy val then d
  else
    match parseIntJS val with
    | none => d
    | some n => n

/-- One basic condition inside a WHERE group:
`this.andWhere(col, op, val)` in the source.  `op` is one of the SQL operator
strings `"="`, `">"`, `"<"`. -/
structure Cond where
  col : String
  op : String
  val : JSVal

/-- A knex query-builder statement, restricted to the statement kinds the
plugin inspects or produces.  `whereGroup` models the nested builder created
by `qb.orWhere(function () { ... })` (knex type `whereWrapped`);
`countDistinct` models the aggregate statement pushed by
`qb.countDistinct(...)`. -/
inductive Statement where
  | orderByBasic (value : String) (direction : String) : Statement
  | orderByRaw (value : String) : Statement
  | groupByBasic (value : String) : Statement
  | groupByRaw (value : String) : Statement
  | columns (value : List String) : Statement
  | whereBasic (column : String) (op : String) (value : JSVal) : Statement
  | whereGroup (conds : List Cond) : Statement
  | countDistinct (value : String) : Statement

/-- The knex `statement.type` tag. -/
def stmtType : Statement → String
  | .orderByBasic _ _ => "orderByBasic"
  | .orderByRaw _ => "orderByRaw"
  | .groupByBasic _ => "groupByBasic"
  | .groupByRaw _ => "groupByRaw"
  | .columns _ => "columns"
  | .whereBasic _ _ _ => "whereBasic"
  | .whereGroup _ => "whereWrapped"
  | .countDistinct _ => "aggregate"

/-- The knex `statement.grouping` tag. -/
def stmtGrouping : Statement → String
  | .orderByBasic _ _ => "order"
  | .orderByRaw _ => "order"
  | .groupByBasic _ => "group"
  | .groupByRaw _ => "group"
  | .columns _ => "columns"
  | .whereBasic _ _ _ => "where"
  | .whereGroup _ => "where"
  | .countDistinct _ => "columns"

/-- A knex query builder: its `_statements` array plus the limit stored in
`_single.limit` by `qb.limit(...)` (in knex the limit is not a statement). -/
structure QB where
  statements : List Statement
  limit : Option Int

/-- A resolved sort column: the plugin keeps the column `name` (table
qualifier stripped) and the clause's `direction` string. -/
structure SortColumn where
  name : String
  direction : String

instance : Inhabited SortColumn := ⟨⟨"", ""⟩⟩

/-- A fetched bookshelf model, reduced to its `attributes`: an ordered list
of attribute-name/value pairs (`Object.keys` order). -/
structure Record where
  attrs : List (String × JSVal)

instance : Inhabited Record := ⟨⟨[]⟩⟩

/-- `model.get(name)`: look the attribute up by name, `undefined` when
absent. -/
def Record.get (m : Record) (name : String) : JSVal :=
  (m.attrs.lookup name).getD .undefined

/-- A decoded cursor: `type` is the string `"after"` or `"before"`, exactly
as built in `fetchCursorPage`. -/
structure Cursor where
  type : String
  columnValues : List JSVal

/-- The `cursors` object returned by `extractCursors`: each field is absent
(`none`) for an empty page. -/
structure Cursors where
  after : Option (List JSVal)
  before : Option (List JSVal)

/-- The errors the plugin can throw, named after the spec's error taxonomy.
In the source they are plain `Error`s with these messages:
`invalidCursorInput` is thrown by `ensureArray` as "... is not an array",
`unsupportedSortTarget` is "sorting by joined table not supported by cursor
paging yet", and `cursorSortMismatch` is "sort/cursor mismatch". -/
inductive Error where
  | invalidCursorInput : Error
  | unsupportedSortTarget : Error
  | cursorSortMismatch : Error
deriving DecidableEq, Repr

/-- JS `s.split('.')` on the character list of a string: every `'.'` starts a
new segment, empty segments included (`"" → [""]`, `"a..b" → ["a","","b"]`). -/
def splitChars : List Char → List (List Char)
  | [] => [[]]
  | c :: rest =>
    let r := splitChars rest
    if c = '.' then [] :: r
    else
      match r with
      | s :: ss => (c :: s) :: ss
      | [] => [[c]]

/-- JS `value.split('.')`. -/
def splitOnDot (s : String) : List String :=
  (splitChars s.data).map fun cs => String.mk cs

/-- The `(value, direction)` pairs of the `orderByBasic` statements of a
builder, in order: the source's
`qb._statements.filter(s => s.type === 'orderByBasic')` followed by reading
`value` and `direction` off each statement. -/
def orderByClauses (stmts : List Statement) : List (String × String) :=
  stmts.filterMap fun s =>
    match s with
    | .orderByBasic v d => some (v, d)
    | _ => none

/-- The implicit-sort step of `applyCursor`: when the builder holds no
`orderByBasic` statement, `qb.orderBy(mainTableName + '.' + idAttribute)`
appends one ascending clause (knex's default direction string is `"asc"`). -/
def normalizeOrder (stmts : List Statement) (mainTableName idAttribute : String) :
    List Statement :=
  let isNotSorted := (stmts.filter fun s => stmtType s = "orderByBasic").length = 0
  if isNotSorted then
    stmts ++ [.orderByBasic (mainTableName ++ "." ++ idAttribute) "asc"]
  else stmts

/-- One step of the `sortedColumns` map in `applyCursor`: destructure
`const [tableName, colName] = value.split('.')`; an unqualified column is
accepted as-is, a column qualified by the main table keeps its column part,
and any other qualifier throws. -/
def parseSortColumn (mainTableName : String) (value direction : String) :
    Except Error SortColumn :=
  let parts := splitOnDot value
  let tableName := parts.getD 0 ""
  match parts.get? 1 with
  | none => .ok ⟨tableName, direction⟩
  | some colName =>
    if tableName ≠ mainTableName then .error .unsupportedSortTarget
    else .ok ⟨colName, direction⟩

/-- The throwing `.map` over the order-by clauses: the first clause whose
resolution throws aborts the whole map with that error. -/
def mapColumns (mainTableName : String) : List (String × String) →
    Except Error (List SortColumn)
  | [] => .ok []
  | p :: ps =>
    match parseSortColumn mainTableName p.1 p.2 with
    | .error e => .error e
    | .ok col =>
      match mapColumns mainTableName ps with
      | .error e => .error e
      | .ok cols => .ok (col :: cols)

/-- The `sortedColumns` computation of `applyCursor`, over an
already-normalized statement list: resolve every `orderByBasic` clause,
propagating the first `unsupportedSortTarget` throw. -/
def sortedColumnsOf (stmts : List Statement) (mainTableName : String) :
    Except Error (List SortColumn) :=
  mapColumns mainTableName (orderByClauses stmts)

/-- `reverseSign` from the source: the lookup `{'>': '<', '<': '>'}[sign]`.
The source only ever applies it to `'>'` and `'<'`; on any other string the
JS lookup would yield `undefined`, a case kept total here by returning the
input. -/
def reverseSign (sign : String) : String :=
  if sign = ">" then "<" else if sign = "<" then ">" else sign

/-- The equality conjuncts emitted by
`visitedCols.forEach((visitedCol, idx) => this.andWhere(visitedCol.name, '=',
cursor.columnValues[idx]))`, with `i` the index of the first column of the
list (the `forEach` starts at `i = 0`).  An out-of-range index yields JS
`undefined`. -/
def eqTermsFrom (vals : List JSVal) (i : Nat) : List SortColumn → List Cond
  | [] => []
  | c :: cs => ⟨c.name, "=", vals.getD i .undefined⟩ :: eqTermsFrom vals (i + 1) cs

/-- The `sign` chosen by `buildWhere` for one column: start at `'>'`, flip
for a `'before'` cursor, flip again for a `DESC` column. -/
def buildSign (cursorType : String) (direction : String) : String :=
  let sign := ">"
  let sign := if cursorType = "before" then reverseSign sign else sign
  if direction = "DESC" then reverseSign sign else sign

/-- `buildWhere` from `applyCursor`: walk the sorted columns, and for each
one push (via `qb.orWhere`) a group holding equalities on all previously
visited columns plus one strict comparison on the current column against its
cursor value.  Returns the pushed groups in order. -/
def buildWhere (cursor : Cursor) : List SortColumn → List SortColumn → List (List Cond)
  | [], _ => []
  | currentCol :: remainingCols, visitedCols =>
    let cursorValue := cursor.columnValues.getD visitedCols.length .undefined
    let sign := buildSign cursor.type currentCol.direction
    let group := eqTermsFrom cursor.columnValues 0 visitedCols ++
      [⟨currentCol.name, sign, cursorValue⟩]
    group :: buildWhere cursor remainingCols (visitedCols ++ [currentCol])

/-- `applyCursor(qb, cursor, mainTableName, idAttribute)`: add the implicit
sort if needed, resolve the sorted columns (throwing on a joined-table
qualifier), check the cursor length and push the keyset WHERE groups.
Returns the mutated builder together with the resolved sort columns (the
latter drive `extractCursors`). -/
def applyCursor (qb : QB) (cursor : Option Cursor)
    (mainTableName idAttribute : String) : Except Error (QB × List SortColumn) :=
  let stmts := normalizeOrder qb.statements mainTableName idAttribute
  match sortedColumnsOf stmts mainTableName with
  | .error e => .error e
  | .ok sortedColumns =>
    match cursor with
    | some c =>
      if sortedColumns.length ≠ c.columnValues.length then
        .error .cursorSortMismatch
      else
        .ok (⟨stmts ++ (buildWhere c sortedColumns []).map Statement.whereGroup,
          qb.limit⟩, sortedColumns)
    | none => .ok (⟨stmts, qb.limit⟩, sortedColumns)

/-- `model2cursor(model)`: read each sort column's attribute off the record
(this requires column name = attribute name, as the source comments). -/
def model2cursor (sortedColumns : List SortColumn) (m : Record) : List JSVal :=
  sortedColumns.map fun c => m.get c.name

/-- `extractCursors(coll)`: no cursors for an empty collection, otherwise
`before` from the first model and `after` from the last. -/
def extractCursors (sortedColumns : List SortColumn) (coll : List Record) : Cursors :=
  if coll.length = 0 then ⟨none, none⟩
  else
    let before := model2cursor sortedColumns (coll.getD 0 default)
    let after := model2cursor sortedColumns (coll.getD (coll.length - 1) default)
    ⟨some after, some before⟩

/-- `notNeededQueries` from `count`. -/
def notNeededQueries : List String :=
  ["orderByBasic", "orderByRaw", "groupByBasic", "groupByRaw"]

/-- The count query built by `count`: assign a clone of the caller's base
builder, `remove` every statement whose type is in `notNeededQueries` or
whose grouping is `'columns'`, then push `countDistinct(tableName + '.' +
idAttribute)`. -/
def countQB (base : QB) (tableName idAttribute : String) : QB :=
  { statements :=
      (base.statements.filter fun s =>
        ¬ (notNeededQueries.contains (stmtType s) ∨ stmtGrouping s = "columns")) ++
      [.countDistinct (tableName ++ "." ++ idAttribute)],
    limit := base.limit }

/-- The metadata object `count` resolves with.  `rowCount` is `none` when the
source never assigns the property (result not exactly one row with exactly
one attribute); `some none` models a `NaN` assigned by `parseInt`;
`some (some n)` is a numeric row count. -/
structure Metadata where
  limit : Int
  rowCount : Option (Option Int)

/-- `count(self, Model, tableName, idAttribute, limit)`: run the count query
through the executor and read the single attribute of the single result row
with `parseInt`; on any other result shape the metadata is returned with
`rowCount` left unset.  `cexec` stands for the external
`counter.query(...).fetchAll()` round trip. -/
def countMeta (cexec : QB → List Record) (base : QB)
    (tableName idAttribute : String) (limit : Int) : Metadata :=
  let result := cexec (countQB base tableName idAttribute)
  if result.length = 1 then
    let modelsCount := result.getD 0 default
    let keys := modelsCount.attrs.map Prod.fst
    if keys.length = 1 then
      let key := keys.getD 0 ""
      { limit := limit, rowCount := some (parseIntJS (modelsCount.get key)) }
    else { limit := limit, rowCount := none }
  else { limit := limit, rowCount := none }

/-- The pagination options accepted by `fetchCursorPage`.  `limit` is the
destructured `options.limit` (`JSVal.undefined` when the key is absent);
`after`/`before` are `some v` exactly when the key is present (`'after' in
options`), whatever value it holds.  The remaining keys are the opaque
fetch-options pass-through and do not influence anything modelled here. -/
structure Options where
  limit : JSVal
  after : Option JSVal
  before : Option JSVal

/-- The cursor-decoding block of `fetchCursorPage`: `after` is consulted
first and validated by `ensureArray`; only when `after` is absent is
`before` consulted; with neither present there is no cursor. -/
def decodeCursor (o : Options) : Except Error (Option Cursor) :=
  match o.after with
  | some v =>
    match v with
    | .arr xs => .ok (some ⟨"after", xs⟩)
    | _ => .error .invalidCursorInput
  | none =>
    match o.before with
    | some v =>
      match v with
      | .arr xs => .ok (some ⟨"before", xs⟩)
      | _ => .error .invalidCursorInput
    | none => .ok none

/-- The slice of `Model.prototype` the plugin reads: the table name and the
(possibly unset) identity attribute name. -/
structure ModelProto where
  tableName : String
  idAttribute : Option String

/-- `Model.prototype.idAttribute ? Model.prototype.idAttribute : 'id'`:
an unset or empty (falsy) identity attribute defaults to `"id"`. -/
def resolveIdAttribute : Option String → String
  | none => "id"
  | some s => if s ≠ "" then s else "id"

/-- `⌈n / d⌉` over the integers, for `d ≠ 0`. -/
def ceilDivInt (n d : Int) : Int :=
  if 0 < d then -(Int.fdiv (-n) d) else -(Int.fdiv n (-d))

/-- `Math.ceil(metadata.rowCount / _limit)`: `none` models a non-finite
result (missing or `NaN` row count, or a zero divisor). -/
def jsCeilDiv (rowCount : Option (Option Int)) (limit : Int) : Option Int :=
  match rowCount with
  | some (some n) => if limit = 0 then none else some (ceilDivInt n limit)
  | _ => none

/-- The collection returned by `fetchCursorPage`, augmented with its
`pagination` property. -/
structure PageResult where
  coll : List Record
  limit : Int
  rowCount : Option (Option Int)
  pageCount : Option Int
  cursors : Cursors

/-- `fetchCursorPage({self, collection, Model}, options)`.  `pexec` stands
for the external `pager.query(...).fetch(fetchOptions)` round trip and
`cexec` for the count round trip; both branches operate on their own clone
of `base`, the caller's builder.  Cursor decoding throws first; the
`applyCursor` throw happens synchronously while building the page query, so
an invalid sort or cursor aborts before either executor runs. -/
def fetchCursorPage (M : ModelProto) (base : QB)
    (pexec : QB → List Record) (cexec : QB → List Record)
    (o : Options) : Except Error PageResult :=
  match decodeCursor o with
  | .error e => .error e
  | .ok cursor =>
    let limit := ensurePositiveIntWithDefault o.limit DEFAULT_LIMIT
    let tableName := M.tableName
    let idAttribute := resolveIdAttribute M.idAttribute
    match applyCursor base cursor tableName idAttribute with
    | .error e => .error e
    | .ok (qb, sortedColumns) =>
      let coll := pexec { qb with limit := some limit }
      let cursors := extractCursors sortedColumns coll
      let metadata := countMeta cexec base tableName idAttribute limit
      let pageCount := jsCeilDiv metadata.rowCount limit
      .ok { coll := coll, limit := limit, rowCount := metadata.rowCount,
            pageCount := pageCount, cursors := cursors }

/-- Specification-side comparison sign (following the spec's words, for
comparison with `buildSign`): the sign starts as `>` and each of the two
conditions flips it, two flips cancelling, so it is `>` exactly when the
cursor type being `before` and the direction being `DESC` agree. -/
def specSign (cursorType direction : String) : String :=
  if (cursorType = "before") ↔ (direction = "DESC") then ">" else "<"

/-- Specification-side disjunction term at position `i` (following the
spec's words): all columns at positions `0..i-1` equal their cursor value,
and column `i` relates to its cursor value by the sign. -/
def specTerm (cursor : Cursor) (cols : List SortColumn) (i : Nat) : List Cond :=
  ((List.range i).map fun j =>
    ⟨(cols.getD j default).name, "=", cursor.columnValues.getD j .undefined⟩) ++
  [⟨(cols.getD i default).name,
    specSign cursor.type (cols.getD i default).direction,
    cursor.columnValues.getD i .undefined⟩]

/-- Specification-side keyset predicate: the disjunction of the terms for
every position `i = 0..n-1`, represented (like the builder's WHERE clause)
as the list of its conjunctive groups. -/
def specKeysetPred (cursor : Cursor) (cols : List SortColumn) : List (List Cond) :=
  (List.range cols.length).map (specTerm cursor cols)

theorem buildSign_eq_specSign (t d : String) : buildSign t d = specSign t d := by
  unfold buildSign specSign reverseSign
  by_cases h1 : t = "before" <;> by_cases h2 : d = "DESC" <;> simp [h1, h2]

theorem eqTermsFrom_append (vals : List JSVal) (k : Nat) (v w : List SortColumn) :
    eqTermsFrom vals k (v ++ w) =
      eqTermsFrom vals k v ++ eqTermsFrom vals (k + v.length) w := by
  induction v generalizing k with
  | nil => simp [eqTermsFrom]
  | cons c cs ih =>
    have harith : k + 1 + cs.length = k + (c :: cs).length := by
      simp only [List.length_cons]
      omega
    simp only [List.cons_append, eqTermsFrom, List.append_eq, ih (k + 1), harith]

theorem eqTermsFrom_take (vals : List JSVal) :
    ∀ (i : Nat) (cols : List SortColumn) (k : Nat), i ≤ cols.length →
      eqTermsFrom vals k (cols.take i) =
        (List.range i).map fun j =>
          ⟨(cols.getD j default).name, "=", vals.getD (k + j) .undefined⟩ := by
  intro i
  induction i with
  | zero => intro cols k _; simp [eqTermsFrom]
  | succ i ih =>
    intro cols k h
    match cols with
    | [] => simp at h
    | c :: cs =>
      rw [List.take_succ_cons, List.range_succ_eq_map, List.map_cons, List.map_map]
      show Cond.mk c.name "=" (vals.getD k .undefined) :: eqTermsFrom vals (k + 1) (cs.take i) = _
      rw [ih cs (k + 1) (by simpa using h)]
      refine congrArg₂ List.cons ?_ ?_
      · simp
      · refine List.map_congr_left fun j _ => ?_
        have h2 : k + 1 + j = k + j.succ := by omega
        simp only [Function.comp_apply, List.getD_cons_succ, h2]

theorem buildWhere_eq_aux (cursor : Cursor) :
    ∀ (cols visited : List SortColumn),
      buildWhere cursor cols visited =
        (List.range cols.length).map fun i =>
          eqTermsFrom cursor.columnValues 0 (visited ++ cols.take i) ++
          [⟨(cols.getD i default).name,
            buildSign cursor.type (cols.getD i default).direction,
            cursor.columnValues.getD (visited.length + i) .undefined⟩] := by
  intro cols
  induction cols with
  | nil => intro visited; simp [buildWhere]
  | cons c cs ih =>
    intro visited
    rw [List.length_cons, List.range_succ_eq_map, List.map_cons, List.map_map]
    show (eqTermsFrom cursor.columnValues 0 visited ++ _) :: buildWhere cursor cs (visited ++ [c]) = _
    rw [ih (visited ++ [c])]
    refine congrArg₂ List.cons ?_ ?_
    · simp
    · refine List.map_congr_left fun i _ => ?_
      simp only [Function.comp_apply, List.take_succ_cons, List.getD_cons_succ,
        List.append_assoc, List.singleton_append, List.length_append,
        List.length_singleton]
      have h2 : visited.length + 1 + i = visited.length + i.succ := by omega
      simp only [h2]

theorem splitChars_no_dot (cs : List Char) (h : '.' ∉ cs) : splitChars cs = [cs] := by
  induction cs with
  | nil => rfl
  | cons c rest ih =>
    have hc : ¬ c = '.' := fun hc => h (hc ▸ List.mem_cons_self c rest)
    have hrest : '.' ∉ rest := fun hr => h (List.mem_cons_of_mem c hr)
    simp only [splitChars, if_neg hc, ih hrest]

theorem splitChars_ne_nil (cs : List Char) : splitChars cs ≠ [] := by
  cases cs with
  | nil => simp [splitChars]
  | cons c rest =>
    simp only [splitChars]
    split
    · simp
    · split
      · simp
      · simp

theorem splitChars_append_dot (xs ys : List Char) (h : '.' ∉ xs) :
    splitChars (xs ++ '.' :: ys) = xs :: splitChars ys := by
  induction xs with
  | nil => simp [splitChars]
  | cons x xs ih =>
    have hx : ¬ x = '.' := fun hx => h (hx ▸ List.mem_cons_self x xs)
    have hxs : '.' ∉ xs := fun hr => h (List.mem_cons_of_mem x hr)
    rw [List.cons_append]
    simp only [splitChars, if_neg hx, ih hxs]

theorem splitOnDot_single (v : String) (h : '.' ∉ v.data) : splitOnDot v = [v] := by
  simp [splitOnDot, splitChars_no_dot v.data h]

theorem splitOnDot_pair (t c : String) (ht : '.' ∉ t.data) (hc : '.' ∉ c.data) :
    splitOnDot (t ++ "." ++ c) = [t, c] := by
  have hdata : (t ++ "." ++ c).data = t.data ++ '.' :: c.data := by
    simp [String.data_append]
  simp [splitOnDot, hdata, splitChars_append_dot t.data c.data ht,
    splitChars_no_dot c.data hc]

theorem parseSortColumn_unqualified (m v d : String) (h : '.' ∉ v.data) :
    parseSortColumn m v d = .ok ⟨v, d⟩ := by
  simp [parseSortColumn, splitOnDot_single v h]

theorem parseSortColumn_qualified_main (m c d : String)
    (hm : '.' ∉ m.data) (hc : '.' ∉ c.data) :
    parseSortColumn m (m ++ "." ++ c) d = .ok ⟨c, d⟩ := by
  simp [parseSortColumn, splitOnDot_pair m c hm hc]

theorem parseSortColumn_qualified_other (m t c d : String)
    (ht : '.' ∉ t.data) (hc : '.' ∉ c.data) (hne : t ≠ m) :
    parseSortColumn m (t ++ "." ++ c) d = .error .unsupportedSortTarget := by
  simp [parseSortColumn, splitOnDot_pair t c ht hc, hne]

theorem parseSortColumn_error_unique (m v d : String) (e : Error)
    (h : parseSortColumn m v d = .error e) : e = .unsupportedSortTarget := by
  unfold parseSortColumn at h
  dsimp only at h
  split at h
  · exact absurd h (by simp)
  · split at h
    · exact (Except.error.injEq _ _ ▸ h).symm
    · exact absurd h (by simp)

theorem stmtType_orderByBasic (s : Statement) (h : stmtType s = "orderByBasic") :
    ∃ v d, s = .orderByBasic v d := by
  cases s <;> simp_all [stmtType]

theorem orderByClauses_eq_nil (stmts : List Statement)
    (h : ∀ s ∈ stmts, stmtGrouping s ≠ "order") : orderByClauses stmts = [] := by
  rw [orderByClauses, List.filterMap_eq_nil_iff]
  intro s hs
  have hg := h s hs
  cases s <;> simp_all [stmtGrouping]

theorem filter_orderByBasic_eq_nil (stmts : List Statement)
    (h : ∀ s ∈ stmts, stmtGrouping s ≠ "order") :
    stmts.filter (fun s => stmtType s = "orderByBasic") = [] := by
  rw [List.filter_eq_nil_iff]
  intro s hs
  have := h s hs
  cases s <;> simp_all [stmtType, stmtGrouping]

theorem normalizeOrder_of_unsorted (stmts : List Statement) (m i : String)
    (h : ∀ s ∈ stmts, stmtGrouping s ≠ "order") :
    normalizeOrder stmts m i = stmts ++ [.orderByBasic (m ++ "." ++ i) "asc"] := by
  unfold normalizeOrder
  rw [filter_orderByBasic_eq_nil stmts h]
  rfl

theorem normalizeOrder_of_sorted (stmts : List Statement) (m i v d : String)
    (h : Statement.orderByBasic v d ∈ stmts) : normalizeOrder stmts m i = stmts := by
  have hne : stmts.filter (fun s => stmtType s = "orderByBasic") ≠ [] := by
    intro hnil
    have := List.filter_eq_nil_iff.mp hnil _ h
    simp [stmtType] at this
  have hlen : ¬ (stmts.filter (fun s => stmtType s = "orderByBasic")).length = 0 := by
    simpa [List.length_eq_zero] using hne
  unfold normalizeOrder
  dsimp only
  exact if_neg hlen

theorem sortedColumnsOf_error_of_mem (stmts : List Statement) (m : String)
    (p : String × String) (hp : p ∈ orderByClauses stmts)
    (he : parseSortColumn m p.1 p.2 = .error .unsupportedSortTarget) :
    sortedColumnsOf stmts m = .error .unsupportedSortTarget := by
  rw [sortedColumnsOf]
  generalize orderByClauses stmts = ps at hp
  induction ps with
  | nil => exact absurd hp (List.not_mem_nil p)
  | cons q qs ih =>
    rw [mapColumns]
    cases hq : parseSortColumn m q.1 q.2 with
    | error e =>
      rw [parseSortColumn_error_unique m q.1 q.2 e hq]
    | ok col =>
      rcases List.mem_cons.mp hp with hqp | hqs
      · rw [hqp, hq] at he
        exact absurd he (by simp)
      · rw [ih hqs]

theorem orderByClauses_append (a b : List Statement) :
    orderByClauses (a ++ b) = orderByClauses a ++ orderByClauses b := by
  simp [orderByClauses, List.filterMap_append]

/-- C1: for every non-null cursor and every normalized sort-column sequence
of the same length, the predicate pushed onto the page query is the
disjunction over positions `i` of "columns `0..i-1` equal their cursor
values AND column `i` relates to its cursor value by the sign", the sign
being `>` flipped once for a `before` cursor and once more for a `DESC`
column; in particular for sort `[colA ASC, colB DESC]` with an `after`
cursor the predicate is `colA > vA OR (colA = vA AND colB < vB)`. -/
theorem buildWhere_is_keyset_disjunction (cursor : Cursor) (cols : List SortColumn)
    (hlen : cols.length = cursor.columnValues.length) :
    buildWhere cursor cols [] = specKeysetPred cursor cols ∧
    buildWhere ⟨"after", [.num 1, .num 2]⟩ [⟨"colA", "ASC"⟩, ⟨"colB", "DESC"⟩] [] =
      [[⟨"colA", ">", .num 1⟩], [⟨"colA", "=", .num 1⟩, ⟨"colB", "<", .num 2⟩]] := by
  constructor
  · rw [buildWhere_eq_aux, specKeysetPred]
    refine List.map_congr_left fun i hi => ?_
    rw [List.mem_range] at hi
    unfold specTerm
    rw [List.nil_append,
      eqTermsFrom_take cursor.columnValues i cols 0 (le_of_lt hi)]
    simp [buildSign_eq_specSign]
  · rfl

/-- C1 witness: the two-column example instantiates the theorem; both sides
evaluate to `colA > 1 OR (colA = 1 AND colB < 2)`. -/
theorem buildWhere_is_keyset_disjunction_witness :
    buildWhere ⟨"after", [.num 1, .num 2]⟩ [⟨"colA", "ASC"⟩, ⟨"colB", "DESC"⟩] [] =
      specKeysetPred ⟨"after", [.num 1, .num 2]⟩ [⟨"colA", "ASC"⟩, ⟨"colB", "DESC"⟩] :=
  (buildWhere_is_keyset_disjunction ⟨"after", [.num 1, .num 2]⟩
    [⟨"colA", "ASC"⟩, ⟨"colB", "DESC"⟩] rfl).1

/-- C5: when the builder carries no ORDER BY clause, normalization appends
exactly one ascending clause on `table.identity`, that clause is the only
order clause afterwards, and it resolves to the single active sort column;
the identity column name defaults to `"id"` when the model does not specify
one. -/
theorem implicit_sort_synthesis (qb : QB) (tableName idAttribute : String)
    (hns : ∀ s ∈ qb.statements, stmtGrouping s ≠ "order")
    (ht : '.' ∉ tableName.data) (hid : '.' ∉ idAttribute.data) :
    resolveIdAttribute none = "id" ∧
    normalizeOrder qb.statements tableName idAttribute =
      qb.statements ++ [.orderByBasic (tableName ++ "." ++ idAttribute) "asc"] ∧
    orderByClauses (normalizeOrder qb.statements tableName idAttribute) =
      [(tableName ++ "." ++ idAttribute, "asc")] ∧
    sortedColumnsOf (normalizeOrder qb.statements tableName idAttribute) tableName =
      .ok [⟨idAttribute, "asc"⟩] := by
  have hnorm := normalizeOrder_of_unsorted qb.statements tableName idAttribute hns
  have hclauses : orderByClauses (normalizeOrder qb.statements tableName idAttribute) =
      [(tableName ++ "." ++ idAttribute, "asc")] := by
    rw [hnorm, orderByClauses_append, orderByClauses_eq_nil qb.statements hns]
    rfl
  refine ⟨rfl, hnorm, hclauses, ?_⟩
  rw [sortedColumnsOf, hclauses, mapColumns,
    parseSortColumn_qualified_main tableName idAttribute "asc" ht hid]
  rfl

/-- C5 witness: a builder holding only a WHERE statement, for table `cars`
with identity `id`, ends up sorted by the single column `id` ascending. -/
theorem implicit_sort_synthesis_witness :
    sortedColumnsOf
      (normalizeOrder [Statement.whereBasic "color" "=" (.str "red")] "cars" "id")
      "cars" = .ok [⟨"id", "asc"⟩] :=
  (implicit_sort_synthesis ⟨[Statement.whereBasic "color" "=" (.str "red")], none⟩
    "cars" "id"
    (fun s hs => by rcases List.mem_singleton.mp hs with rfl; simp [stmtGrouping])
    (by decide) (by decide)).2.2.2

/-- C6: an ORDER BY clause qualified with a table other than the primary one
makes sort resolution—and with it the whole `applyCursor`—fail with
`unsupportedSortTarget` before any WHERE predicate is attached, while
unqualified columns and columns qualified with the primary table are
accepted. -/
theorem joined_table_sort_rejected (qb : QB) (cursor : Option Cursor)
    (m t c v d idAttribute : String)
    (hm : '.' ∉ m.data) (ht : '.' ∉ t.data) (hc : '.' ∉ c.data) (hv : '.' ∉ v.data)
    (hne : t ≠ m)
    (hmem : Statement.orderByBasic (t ++ "." ++ c) d ∈ qb.statements) :
    parseSortColumn m (t ++ "." ++ c) d = .error .unsupportedSortTarget ∧
    applyCursor qb cursor m idAttribute = .error .unsupportedSortTarget ∧
    parseSortColumn m v d = .ok ⟨v, d⟩ ∧
    parseSortColumn m (m ++ "." ++ c) d = .ok ⟨c, d⟩ := by
  have herr := parseSortColumn_qualified_other m t c d ht hc hne
  have hnorm := normalizeOrder_of_sorted qb.statements m idAttribute _ _ hmem
  have hclause : ((t ++ "." ++ c), d) ∈ orderByClauses qb.statements := by
    rw [orderByClauses, List.mem_filterMap]
    exact ⟨_, hmem, rfl⟩
  have hsc : sortedColumnsOf (normalizeOrder qb.statements m idAttribute) m =
      .error .unsupportedSortTarget := by
    rw [hnorm]
    exact sortedColumnsOf_error_of_mem _ m ((t ++ "." ++ c), d) hclause herr
  have happly : applyCursor qb cursor m idAttribute = .error .unsupportedSortTarget := by
    unfold applyCursor
    dsimp only
    rw [hsc]
  exact ⟨herr, happly, parseSortColumn_unqualified m v d hv,
    parseSortColumn_qualified_main m c d hm hc⟩

/-- C6 witness: sorting cars by `manufacturers.name` is rejected with
`unsupportedSortTarget` even before any cursor is considered. -/
theorem joined_table_sort_rejected_witness :
    applyCursor ⟨[Statement.orderByBasic "manufacturers.name" "DESC"], none⟩
      none "cars" "id" = .error .unsupportedSortTarget :=
  (joined_table_sort_rejected ⟨[Statement.orderByBasic "manufacturers.name" "DESC"], none⟩
    none "cars" "manufacturers" "name" "productionYear" "DESC" "id"
    (by decide) (by decide) (by decide) (by decide) (by decide)
    (List.mem_singleton.mpr rfl)).2.1

/-- C7: with a cursor present, a mismatch between the cursor value count and
the active sort-column count aborts `applyCursor` with `cursorSortMismatch`
(no WHERE groups attached); with matching lengths the keyset groups are
attached; with no cursor the statements gain no WHERE group at all. -/
theorem cursor_sort_mismatch_check (qb : QB) (m idAttribute : String) (c : Cursor)
    (cols : List SortColumn)
    (hcols : sortedColumnsOf (normalizeOrder qb.statements m idAttribute) m = .ok cols) :
    (cols.length ≠ c.columnValues.length →
      applyCursor qb (some c) m idAttribute = .error .cursorSortMismatch) ∧
    (cols.length = c.columnValues.length →
      applyCursor qb (some c) m idAttribute =
        .ok (⟨normalizeOrder qb.statements m idAttribute ++
          (buildWhere c cols []).map Statement.whereGroup, qb.limit⟩, cols)) ∧
    applyCursor qb none m idAttribute =
      .ok (⟨normalizeOrder qb.statements m idAttribute, qb.limit⟩, cols) := by
  refine ⟨fun hne => ?_, fun heq => ?_, ?_⟩
  · unfold applyCursor
    dsimp only
    rw [hcols]
    exact if_pos hne
  · unfold applyCursor
    dsimp only
    rw [hcols]
    exact if_neg (by simpa using heq)
  · unfold applyCursor
    dsimp only
    rw [hcols]

/-- C7 witness: on a single-column sort, a two-value cursor is rejected, the
matching one-value cursor attaches exactly the keyset group, and no cursor
attaches nothing. -/
theorem cursor_sort_mismatch_check_witness :
    applyCursor ⟨[], none⟩ (some ⟨"after", [.num 7, .num 8]⟩) "cars" "id" =
      .error .cursorSortMismatch ∧
    applyCursor ⟨[], none⟩ (some ⟨"after", [.num 7]⟩) "cars" "id" =
      .ok (⟨[.orderByBasic "cars.id" "asc", .whereGroup [⟨"id", ">", .num 7⟩]], none⟩,
        [⟨"id", "asc"⟩]) ∧
    applyCursor ⟨[], none⟩ none "cars" "id" =
      .ok (⟨[.orderByBasic "cars.id" "asc"], none⟩, [⟨"id", "asc"⟩]) :=
  ⟨(cursor_sort_mismatch_check ⟨[], none⟩ "cars" "id" ⟨"after", [.num 7, .num 8]⟩
      [⟨"id", "asc"⟩] rfl).1 (by decide),
   (cursor_sort_mismatch_check ⟨[], none⟩ "cars" "id" ⟨"after", [.num 7]⟩
      [⟨"id", "asc"⟩] rfl).2.1 (by decide),
   (cursor_sort_mismatch_check ⟨[], none⟩ "cars" "id" ⟨"after", [.num 7]⟩
      [⟨"id", "asc"⟩] rfl).2.2⟩

theorem getD_zero_eq_head (coll : List Record) (h : coll ≠ []) :
    coll.getD 0 default = coll.head h := by
  cases coll with
  | nil => exact absurd rfl h
  | cons a as => rfl

theorem getD_pred_length_eq_getLast (coll : List Record) (h : coll ≠ []) :
    coll.getD (coll.length - 1) default = coll.getLast h := by
  induction coll with
  | nil => exact absurd rfl h
  | cons a as ih =>
    cases as with
    | nil => rfl
    | cons b bs =>
      have h2 : (b :: bs) ≠ [] := List.cons_ne_nil b bs
      have hlen : (a :: b :: bs).length - 1 = ((b :: bs).length - 1) + 1 := by simp
      rw [hlen, List.getD_cons_succ, ih h2, List.getLast_cons h2]

/-- C8: for a non-empty fetched page the returned cursors are `before` = the
sort-column attribute values of the first row and `after` = those of the
last row, each read off the record by the sort column's name; an empty page
produces neither cursor. -/
theorem cursors_from_page_endpoints (cols : List SortColumn) (coll : List Record)
    (h : coll ≠ []) :
    extractCursors cols coll =
      ⟨some (cols.map fun c => (coll.getLast h).get c.name),
       some (cols.map fun c => (coll.head h).get c.name)⟩ ∧
    extractCursors cols [] = ⟨none, none⟩ := by
  constructor
  · rw [extractCursors, if_neg (by simpa [List.length_eq_zero] using h)]
    dsimp only
    rw [model2cursor, model2cursor, getD_zero_eq_head coll h,
      getD_pred_length_eq_getLast coll h]
  · rfl

/-- C8 witness: a two-row page sorted by `id` yields `before` from row one
and `after` from row two. -/
theorem cursors_from_page_endpoints_witness :
    extractCursors [⟨"id", "asc"⟩] [⟨[("id", .num 1)]⟩, ⟨[("id", .num 2)]⟩] =
      ⟨some [.num 2], some [.num 1]⟩ :=
  ((cursors_from_page_endpoints [⟨"id", "asc"⟩]
    [⟨[("id", .num 1)]⟩, ⟨[("id", .num 2)]⟩] (List.cons_ne_nil _ _)).1).trans rfl

/-- C2 counterexample: supplying both `after` and `before` (each a valid
array) does not fail — the code consults `after` first and silently ignores
`before`, contradicting the claim that both present always yields
`InvalidCursorInput`. -/
theorem decode_both_cursors_present_no_error :
    (Options.mk .undefined (some (.arr [.num 1])) (some (.arr [.num 2]))).after.isSome
        = true ∧
    (Options.mk .undefined (some (.arr [.num 1])) (some (.arr [.num 2]))).before.isSome
        = true ∧
    decodeCursor ⟨.undefined, some (.arr [.num 1]), some (.arr [.num 2])⟩ =
      .ok (some ⟨"after", [.num 1]⟩) :=
  ⟨rfl, rfl, rfl⟩

/-- C2 theorem (amended): decoding fails with `invalidCursorInput` iff the
consulted field is present and not an array — `after` is consulted whenever
present and `before` only when `after` is absent, so a `before` alongside a
valid `after` is silently ignored; otherwise the supplied values are carried
into an `after`/`before` cursor, and with neither field there is no cursor. -/
theorem decode_cursor_characterization (o : Options) :
    (decodeCursor o = .error .invalidCursorInput ↔
      (∃ v, o.after = some v ∧ isArray v = false) ∨
      (o.after = none ∧ ∃ v, o.before = some v ∧ isArray v = false)) ∧
    (∀ xs, o.after = some (.arr xs) → decodeCursor o = .ok (some ⟨"after", xs⟩)) ∧
    (∀ xs, o.after = none → o.before = some (.arr xs) →
      decodeCursor o = .ok (some ⟨"before", xs⟩)) ∧
    (o.after = none → o.before = none → decodeCursor o = .ok none) := by
  obtain ⟨l, a, b⟩ := o
  cases a with
  | some v =>
    cases v <;> simp [decodeCursor, isArray]
  | none =>
    cases b with
    | some w => cases w <;> simp [decodeCursor, isArray]
    | none => simp [decodeCursor, isArray]

/-- C2 witness: a valid `after` decodes to an after-cursor with the supplied
values, a valid lone `before` to a before-cursor, and no field to no
cursor. -/
theorem decode_cursor_characterization_witness :
    decodeCursor ⟨.undefined, some (.arr [.num 3]), none⟩ =
      .ok (some ⟨"after", [.num 3]⟩) ∧
    decodeCursor ⟨.undefined, none, some (.arr [.num 4])⟩ =
      .ok (some ⟨"before", [.num 4]⟩) ∧
    decodeCursor ⟨.undefined, none, none⟩ = .ok none :=
  ⟨(decode_cursor_characterization ⟨.undefined, some (.arr [.num 3]), none⟩).2.1
      [.num 3] rfl,
   (decode_cursor_characterization ⟨.undefined, none, some (.arr [.num 4])⟩).2.2.1
      [.num 4] rfl rfl,
   (decode_cursor_characterization ⟨.undefined, none, none⟩).2.2.2 rfl rfl⟩

/-- C3 counterexample: on a malformed count result (zero rows, or one row
with two columns) `count` raises no error at all — it resolves with metadata
whose `rowCount` is simply missing, contradicting the claimed
`CountUnavailable` failure. -/
theorem count_malformed_result_returns_metadata :
    countMeta (fun _ => []) ⟨[], none⟩ "cars" "id" 10 = ⟨10, none⟩ ∧
    countMeta (fun _ => [⟨[("a", .num 1), ("b", .num 2)]⟩]) ⟨[], none⟩ "cars" "id" 10 =
      ⟨10, none⟩ :=
  ⟨rfl, rfl⟩

/-- C3 theorem (amended): whenever the count query's result does not contain
exactly one row with exactly one column, the row-count operation raises no
error and returns the metadata with `rowCount` left unset (total, not an
`Except`), so pagination metadata is still produced. -/
theorem count_malformed_result_omits_rowCount (cexec : QB → List Record) (base : QB)
    (tableName idAttribute : String) (limit : Int)
    (h : ¬ ((cexec (countQB base tableName idAttribute)).length = 1 ∧
      ((cexec (countQB base tableName idAttribute)).getD 0 default).attrs.length = 1)) :
    countMeta cexec base tableName idAttribute limit = ⟨limit, none⟩ := by
  unfold countMeta
  dsimp only
  by_cases h1 : (cexec (countQB base tableName idAttribute)).length = 1
  · have h2 : ¬ ((cexec (countQB base tableName idAttribute)).getD 0 default).attrs.length
        = 1 := fun h2 => h ⟨h1, h2⟩
    rw [if_pos h1, if_neg (by simpa [List.length_map] using h2)]
  · rw [if_neg h1]

/-- C3 witness: one row with zero columns is malformed; `count` still
resolves with metadata. -/
theorem count_malformed_result_omits_rowCount_witness :
    countMeta (fun _ => [⟨[]⟩]) ⟨[], none⟩ "cars" "id" 7 = ⟨7, none⟩ :=
  count_malformed_result_omits_rowCount (fun _ => [⟨[]⟩]) ⟨[], none⟩ "cars" "id" 7
    (by simp)

theorem countMeta_rowCount_limit_irrel (cexec : QB → List Record) (base : QB)
    (t i : String) (l1 l2 : Int) :
    (countMeta cexec base t i l1).rowCount = (countMeta cexec base t i l2).rowCount := by
  unfold countMeta
  dsimp only
  simp only [apply_ite Metadata.rowCount]

theorem fetchCursorPage_ok_rowCount (M : ModelProto) (base : QB)
    (pexec cexec : QB → List Record) (o : Options) (r : PageResult)
    (h : fetchCursorPage M base pexec cexec o = .ok r) :
    r.rowCount = (countMeta cexec base M.tableName (resolveIdAttribute M.idAttribute)
      (ensurePositiveIntWithDefault o.limit DEFAULT_LIMIT)).rowCount := by
  unfold fetchCursorPage at h
  cases hdc : decodeCursor o with
  | error e => rw [hdc] at h; exact absurd h (by simp)
  | ok cursor =>
    rw [hdc] at h
    dsimp only at h
    cases hac : applyCursor base cursor M.tableName (resolveIdAttribute M.idAttribute) with
    | error e => rw [hac] at h; exact absurd h (by simp)
    | ok pr =>
      rw [hac] at h
      obtain ⟨qb, sortedColumns⟩ := pr
      dsimp only at h
      have hr := Except.ok.inj h
      rw [← hr]

/-- C4: the count query keeps no ORDER BY or GROUP BY statement, contains
the pushed `COUNT(DISTINCT table.identity)` aggregate, retains the base
query's WHERE filters, and — since it is built from the caller's base query
before limit and cursor are applied — the resulting `rowCount` is identical
across all successful `fetchCursorPage` calls over the same base query,
whatever their limit or cursor options. -/
theorem count_query_shape_and_invariance :
    (∀ (base : QB) (t i : String), ∀ s ∈ (countQB base t i).statements,
      stmtGrouping s ≠ "order" ∧ stmtGrouping s ≠ "group") ∧
    (∀ (base : QB) (t i : String),
      Statement.countDistinct (t ++ "." ++ i) ∈ (countQB base t i).statements) ∧
    (∀ (base : QB) (t i : String) (s : Statement), s ∈ base.statements →
      stmtGrouping s = "where" → s ∈ (countQB base t i).statements) ∧
    (∀ (M : ModelProto) (base : QB) (pexec cexec : QB → List Record)
      (o o' : Options) (r r' : PageResult),
      fetchCursorPage M base pexec cexec o = .ok r →
      fetchCursorPage M base pexec cexec o' = .ok r' →
      r.rowCount = r'.rowCount) := by
  refine ⟨?_, ?_, ?_, ?_⟩
  · intro base t i s hs
    rw [countQB] at hs
    rcases List.mem_append.mp hs with hf | hcd
    · have hp := (List.mem_filter.mp hf).2
      cases s <;> simp_all [stmtType, stmtGrouping, notNeededQueries]
    · rcases List.mem_singleton.mp hcd with rfl
      simp [stmtGrouping]
  · intro base t i
    rw [countQB]
    exact List.mem_append_right _ (List.mem_singleton.mpr rfl)
  · intro base t i s hs hw
    rw [countQB]
    refine List.mem_append_left _ (List.mem_filter.mpr ⟨hs, ?_⟩)
    cases s <;> simp_all [stmtType, stmtGrouping, notNeededQueries]
  · intro M base pexec cexec o o' r r' h h'
    rw [fetchCursorPage_ok_rowCount M base pexec cexec o r h,
      fetchCursorPage_ok_rowCount M base pexec cexec o' r' h']
    exact countMeta_rowCount_limit_irrel cexec base M.tableName
      (resolveIdAttribute M.idAttribute)
      (ensurePositiveIntWithDefault o.limit DEFAULT_LIMIT)
      (ensurePositiveIntWithDefault o'.limit DEFAULT_LIMIT)

/-- C4 witness: over the same base query and executors, a call with default
limit and no cursor and a call with limit 2 and an after-cursor return the
same `rowCount`. -/
theorem count_query_shape_and_invariance_witness :
    ({ coll := [], limit := 10, rowCount := some (some 3), pageCount := some 1,
       cursors := ⟨none, none⟩ } : PageResult).rowCount =
    ({ coll := [], limit := 2, rowCount := some (some 3), pageCount := some 2,
       cursors := ⟨none, none⟩ } : PageResult).rowCount :=
  count_query_shape_and_invariance.2.2.2 ⟨"cars", none⟩ ⟨[], none⟩ (fun _ => [])
    (fun _ => [⟨[("count", .num 3)]⟩]) ⟨.undefined, none, none⟩
    ⟨.num 2, some (.arr [.num 5]), none⟩ _ _ rfl rfl

/-- C9 counterexample: a limit of `0` does parse to the number `0`, yet the
applied limit is the default `10`, not `0` — `0` is falsy and short-circuits
before `parseInt`, contradicting the claim that every limit parsing to a
number is applied as that parsed integer. -/
theorem limit_zero_parses_but_defaults :
    parseIntJS (.num 0) = some 0 ∧
    ensurePositiveIntWithDefault (.num 0) DEFAULT_LIMIT = 10 ∧
    ensurePositiveIntWithDefault (.num 0) DEFAULT_LIMIT ≠ 0 :=
  ⟨by decide, by decide, by decide⟩

/-- C9 theorem (amended): an absent or non-parsing limit silently becomes
the default 10 (the function is total, it never throws), and a limit that
parses to a number is applied as that parsed integer provided the original
value is truthy — falsy limits such as `0` fall back to the default. -/
theorem limit_defaulting_lenient (v : JSVal) (n d : Int) :
    ensurePositiveIntWithDefault .undefined DEFAULT_LIMIT = 10 ∧
    ensurePositiveIntWithDefault (.str "abc") DEFAULT_LIMIT = 10 ∧
    (parseIntJS v = none → ensurePositiveIntWithDefault v d = d) ∧
    (truthy v = false → ensurePositiveIntWithDefault v d = d) ∧
    (truthy v = true → parseIntJS v = some n → ensurePositiveIntWithDefault v d = n) := by
  refine ⟨by decide, by decide, ?_, ?_, ?_⟩
  · intro hp
    unfold ensurePositiveIntWithDefault
    rw [hp]
    split <;> rfl
  · intro ht
    unfold ensurePositiveIntWithDefault
    rw [ht]
    rfl
  · intro ht hp
    unfold ensurePositiveIntWithDefault
    rw [ht, hp]
    rfl

/-- C9 witness: the string limit `"7"` is truthy and parses, so 7 is
applied; the limit `false` does not parse, so the default is applied. -/
theorem limit_defaulting_lenient_witness :
    ensurePositiveIntWithDefault (.str "7") 10 = 7 ∧
    ensurePositiveIntWithDefault (.bool false) 10 = 10 :=
  ⟨(limit_defaulting_lenient (.str "7") 7 10).2.2.2.2 (by decide) (by decide),
   (limit_defaulting_lenient (.bool false) 0 10).2.2.1 (by decide)⟩

/-- C10: limit normalization does not enforce positivity — any truthy value
whose `parseInt` result is a number is applied verbatim, so `-5` stays `-5`,
while the falsy `0` falls back to the default 10. -/
theorem limit_positivity_not_enforced (v : JSVal) (n : Int) :
    (truthy v = true → parseIntJS v = some n →
      ensurePositiveIntWithDefault v DEFAULT_LIMIT = n) ∧
    ensurePositiveIntWithDefault (.num (-5)) DEFAULT_LIMIT = -5 ∧
    ensurePositiveIntWithDefault (.num 0) DEFAULT_LIMIT = 10 := by
  refine ⟨?_, by decide, by decide⟩
  intro ht hp
  unfold ensurePositiveIntWithDefault
  rw [ht, hp]
  rfl

/-- C10 witness: the negative limit `-7` is applied as `-7`. -/
theorem limit_positivity_not_enforced_witness :
    ensurePositiveIntWithDefault (.num (-7)) DEFAULT_LIMIT = -7 :=
  (limit_positivity_not_enforced (.num (-7)) (-7)).1 (by decide) (by decide)

end BCP
